import Mathlib

/-!
Shallow embedding of the probing engine in src/maigret/maigret.py
(response classification, applicability filtering, worker-pool sizing,
the exploration driver loop of main, and recursive-identifier filtering),
together with theorems checking the natural-language specification
against it.
-/

namespace Maigret

/-- Boolean test that the first character list occurs at the head of the
second one (exact match of a leading segment). -/
def strStarts : List Char → List Char → Bool
  | [], _ => true
  | _ :: _, [] => false
  | a :: as, b :: bs => a == b && strStarts as bs

/-- Boolean test that the pattern occurs somewhere inside the haystack
character list. -/
def hasSubList (pat : List Char) : List Char → Bool
  | [] => pat.isEmpty
  | c :: t => strStarts pat (c :: t) || hasSubList pat t

/-- Embedding of the Python substring test `pat in hay` on strings. -/
def containsStr (hay pat : String) : Bool :=
  hasSubList pat.data hay.data

/-- Embedding of `QueryStatus` from result.py as used by maigret.py. -/
inductive QueryStatus
  | CLAIMED
  | AVAILABLE
  | UNKNOWN
  | ILLEGAL
deriving DecidableEq, Repr

/-- Fields of a `QueryResult` that classification determines: the status
and the optional context message. -/
structure Verdict where
  status : QueryStatus
  context : Option String
deriving DecidableEq, Repr

/-- Delivered HTTP response: status code and body text (`r.status_code`
and `r.text` in the source). -/
structure HttpResponse where
  status_code : Nat
  text : String
deriving DecidableEq, Repr

/-- Outcome of forcing one request future: either a delivered response or
one of the transport exceptions distinguished by `get_response`. -/
inductive RequestOutcome
  | delivered (r : HttpResponse)
  | httpErr (msg : String)
  | proxyErr (msg : String)
  | connErr (msg : String)
  | timeoutErr (msg : String)
  | reqErr (msg : String)
deriving DecidableEq, Repr

/-- Uncaught Python exceptions the classification loop can raise:
an AttributeError from dereferencing a `None` response, or the
`ValueError` raised for an unknown error type. -/
inductive PyError
  | attributeError
  | valueErr (errorType : String)
deriving DecidableEq, Repr

/-- Embedding of `get_response` (maigret.py lines 100-128): returns the
optional response, the error context and the exception text.  A delivered
response clears the default "General Unknown Error" context exactly when
its status code is truthy (nonzero); each transport exception produces
its fixed context string. -/
def get_response : RequestOutcome → Option HttpResponse × Option String × Option String
  | .delivered r =>
      (some r, if r.status_code ≠ 0 then none else some "General Unknown Error", none)
  | .httpErr m => (none, some "HTTP Error", some m)
  | .proxyErr m => (none, some "Proxy Error", some m)
  | .connErr m => (none, some "Error Connecting", some m)
  | .timeoutErr m => (none, some "Timeout Error", some m)
  | .reqErr m => (none, some "Unknown Error", some m)

/-- Per-service configuration record: the fields of one `net_info` entry
of `site_data` that the engine reads.  `type` defaults to "username" at
its use site, `request_head_only` defaults to `True` at its use site, and
`regexPass` embeds the presence and match result of `regexCheck` against
the current username (`none` when no regex is declared). -/
structure Site where
  name : String
  type : Option String
  tags : List String
  regexPass : Option Bool
  errorType : String
  errors : List (String × String)
  errorMsg : List String
  request_head_only : Option Bool
deriving DecidableEq, Repr

/-- Embedding of the failure-annotation scan (maigret.py lines 359-364):
iterate over `failure_errors.items()` and on the first key occurring in
`r.text` replace the error text by the annotation's comment.  When the
response is `None` (transport failure) and the annotation dict is
non-empty, the attribute access `r.text` raises. -/
def scanFailures : Option HttpResponse → List (String × String) → Option String →
    Except PyError (Option String)
  | _, [], et => .ok et
  | none, _ :: _, _ => .error .attributeError
  | some r, (text, comment) :: rest, et =>
      if containsStr r.text text then .ok (some comment)
      else scanFailures (some r) rest et

/-- Embedding of the per-site classification step of the second loop of
`sherlock` (maigret.py lines 329-451): force the future via
`get_response`, run the failure-annotation scan, then either report
`UNKNOWN` with the error context, or dispatch on `errorType` exactly as
the source does ("message", "status_code" with the condition
`not r.status_code >= 300 or r.status_code < 200`, "response_url" with
`200 <= r.status_code < 300`), and raise `ValueError` otherwise. -/
def classifySite (site : Site) (outcome : RequestOutcome) : Except PyError Verdict :=
  let r := (get_response outcome).1
  let et0 := (get_response outcome).2.1
  match scanFailures r site.errors et0 with
    | .error e => .error e
    | .ok (some msg) => .ok ⟨.UNKNOWN, some msg⟩
    | .ok none =>
      if site.errorType = "message" then
        match r with
        | none => .error .attributeError
        | some resp =>
          if site.errorMsg.any (fun err => containsStr resp.text err) then
            .ok ⟨.AVAILABLE, none⟩
          else
            .ok ⟨.CLAIMED, none⟩
      else if site.errorType = "status_code" then
        match r with
        | none => .error .attributeError
        | some resp =>
          if ¬ resp.status_code ≥ 300 ∨ resp.status_code < 200 then
            .ok ⟨.CLAIMED, none⟩
          else
            .ok ⟨.AVAILABLE, none⟩
      else if site.errorType = "response_url" then
        match r with
        | none => .error .attributeError
        | some resp =>
          if 200 ≤ resp.status_code ∧ resp.status_code < 300 then
            .ok ⟨.CLAIMED, none⟩
          else
            .ok ⟨.AVAILABLE, none⟩
      else
        .error (.valueErr site.errorType)

/-- Request methods the dispatcher can choose between. -/
inductive HttpMethod
  | head
  | get
deriving DecidableEq, Repr

/-- Embedding of the method selection of `sherlock` (maigret.py lines
250-260): HEAD exactly when the error type is "status_code" and
`net_info.get("request_head_only", True) == True`, GET otherwise. -/
def request_method (s : Site) : HttpMethod :=
  if s.errorType = "status_code" ∧ s.request_head_only.getD true = true then
    .head
  else
    .get

/-- Embedding of the applicability filter at the top of the first loop of
`sherlock` (maigret.py lines 196-205): the site's `type` (defaulting to
"username") must equal the requested identifier type, and when a
non-empty tag filter is configured it must intersect the site's tags. -/
def siteApplicable (idType : String) (tagsF : List String) (s : Site) : Bool :=
  (s.type.getD "username" == idType) &&
    (tagsF.isEmpty || tagsF.any (fun t => s.tags.contains t))

/-- Embedding of the worker-pool sizing of `sherlock` (maigret.py lines
180-185): 20 when the whole `site_data` catalog has at least 20 entries,
its length otherwise.  The computation precedes the applicability
filter. -/
def max_workers (site_data : List Site) : Nat :=
  if site_data.length ≥ 20 then 20 else site_data.length

/-- Number of catalog entries that pass the applicability filter. -/
def countApplicable (idType : String) (tagsF : List String) (l : List Site) : Nat :=
  (l.filter (siteApplicable idType tagsF)).length

/-- Notifications one `sherlock` round sends to the `query_notify` sink:
the initial `start`, one `update` per produced verdict, and the terminal
`finish`. -/
inductive Event
  | start (username idType : String)
  | verdict (siteName : String) (v : Verdict)
  | finish
deriving DecidableEq, Repr

/-- Verdict recorded for a username rejected by `regexCheck` (maigret.py
lines 227-237). -/
def illegalVerdict : Verdict := ⟨.ILLEGAL, none⟩

/-- Embedding of the second loop of `sherlock` over the probed sites:
classify each site in order, emitting one verdict notification per site;
an uncaught exception stops the loop at once (later sites produce
nothing), and the terminal `finish` notification is emitted only when
the loop runs to completion. -/
def classifyLoop : List (Site × RequestOutcome) → List Event × Option PyError
  | [] => ([.finish], none)
  | (s, o) :: rest =>
      match classifySite s o with
      | .error e => ([], some e)
      | .ok v => (.verdict s.name v :: (classifyLoop rest).1, (classifyLoop rest).2)

/-- Full notification trace of one `sherlock` round on a catalog paired
with the transport outcome each probe would deliver: the `start` call,
the `ILLEGAL` verdicts emitted synchronously in the first loop, then the
classification loop over the applicable sites that passed the regex
pre-check.  The second component is the uncaught exception, when one was
raised. -/
def roundEvents (username idType : String) (tagsF : List String)
    (sites : List (Site × RequestOutcome)) : List Event × Option PyError :=
  let app := sites.filter (fun p => siteApplicable idType tagsF p.1)
  let illegal := (app.filter (fun p => p.1.regexPass == some false)).map
      (fun p => Event.verdict p.1.name illegalVerdict)
  let probed := app.filter (fun p => !(p.1.regexPass == some false))
  (Event.start username idType :: (illegal ++ (classifyLoop probed).1),
    (classifyLoop probed).2)

/-- Names of the sites entered into `results_total` in the first loop of
`sherlock`: exactly the applicable ones. -/
def roundResults (idType : String) (tagsF : List String)
    (sites : List (Site × RequestOutcome)) : List String :=
  (sites.filter (fun p => siteApplicable idType tagsF p.1)).map (fun p => p.1.name)

/-- Names of the sites for which a request future is created (applicable
and passing the regex pre-check). -/
def probedNames (idType : String) (tagsF : List String)
    (sites : List (Site × RequestOutcome)) : List String :=
  ((sites.filter (fun p => siteApplicable idType tagsF p.1)).filter
      (fun p => !(p.1.regexPass == some false))).map (fun p => p.1.name)

/-- Embedding of the per-key kind assignment for one extracted pair in
`sherlock` (maigret.py lines 377-381): a key containing "username" queues
the value under kind "username"; a key that is one of the three special
ids queues the value under the key itself (this second assignment runs
after the first, so it wins when both would apply); any other key queues
nothing. -/
def assignKind (k : String) : Option String :=
  if k = "yandex_public_id" ∨ k = "wikimapia_uid" ∨ k = "gaia_id" then some k
  else if containsStr k "username" then some "username"
  else none

/-- Lookup function of the `new_usernames` dict built by `sherlock` from
the extracted ids data, iterated in order with later assignments
overwriting earlier ones: the kind recorded for value `v` is the
assignment of the last pair whose key assigns a kind to `v`. -/
def new_usernames_lookup : List (String × String) → String → Option String
  | [], _ => none
  | (k, val) :: rest, v =>
      match new_usernames_lookup rest v with
      | some s => some s
      | none => if val = v then assignKind k else none

/-- ASCII lowering of one character, the case used by the identifiers the
engine handles. -/
def lowerChar (c : Char) : Char :=
  if c.isUpper then Char.ofNat (c.toNat + 32) else c

/-- Embedding of the Python case-folding `username.lower()` used by the
dedup check of `main`. -/
def pyLower (s : String) : String :=
  ⟨s.data.map lowerChar⟩

/-- Events of the exploration driver loop of `main`: one dispatched
`sherlock` round per identifier actually processed, and the completion
notification that round's `query_notify.finish()` issues. -/
inductive DEvent
  | dispatched (username idType : String)
  | finished
deriving DecidableEq, Repr

/-- Python dict assignment `usernames[u] = v` on an ordered association
list: an existing key keeps its position and gets the new value, a new
key is appended. -/
def upsert (q : List (String × String)) (u v : String) : List (String × String) :=
  if q.any (fun p => p.1 = u) then q.map (fun p => if p.1 = u then (u, v) else p)
  else q ++ [(u, v)]

/-- Fold of the recursive additions of `main` (lines 724-727): every
discovered (identifier, kind) pair is assigned into the usernames dict. -/
def pushAll (q newU : List (String × String)) : List (String × String) :=
  newU.foldl (fun acc p => upsert acc p.1 p.2) q

/-- Embedding of the driver loop of `main` (maigret.py lines 688-727):
pop the first entry of the usernames dict; when its lower-cased form was
already checked, silently discard it; otherwise record it as checked,
run one `sherlock` round (which reports completion at its end) and fold
the identifiers it discovers back into the queue.  `fuel` bounds the
number of iterations, mirroring that any concrete run performs finitely
many. -/
def driver : Nat → List (String × String) → List String →
    (String → List (String × String)) → List DEvent
  | 0, _, _, _ => []
  | _ + 1, [], _, _ => []
  | fuel + 1, (u, k) :: rest, checked, disc =>
      if pyLower u ∈ checked then driver fuel rest checked disc
      else
        DEvent.dispatched u k :: DEvent.finished ::
          driver fuel (pushAll rest (disc u)) (pyLower u :: checked) disc

/-- Number of completion notifications in a driver trace. -/
def countFinished (evs : List DEvent) : Nat :=
  evs.countP (fun e => e == DEvent.finished)

/-- Number of dispatched rounds in a driver trace. -/
def countRounds (evs : List DEvent) : Nat :=
  evs.countP (fun e => match e with | .dispatched _ _ => true | _ => false)

/-- Number of dispatched rounds whose identifier has the given
lower-cased form. -/
def dispatchCount (s : String) (evs : List DEvent) : Nat :=
  evs.countP (fun e => match e with | .dispatched u _ => pyLower u == s | _ => false)

/-- Minimal status_code site used by concrete evaluations. -/
def siteSC : Site := ⟨"sc", none, [], none, "status_code", [], [], none⟩

/-- Message-strategy site declaring one failure marker `ban` besides its
error message. -/
def siteAnn : Site :=
  ⟨"ann", none, [], none, "message", [("ban", "Site banned")], ["not found"], none⟩

/-- Message-strategy site with no failure markers declared. -/
def siteClean : Site := ⟨"clean", none, [], none, "message", [], ["not found"], none⟩

/-- Site configured with an unknown error type. -/
def siteBad : Site := ⟨"bad", none, [], none, "magic", [], [], none⟩

/-- Well-configured status_code site used as the neighbour of `siteBad`. -/
def siteGood : Site := ⟨"good", none, [], none, "status_code", [], [], none⟩

/-- Username-kind site of a two-entry demonstration catalog. -/
def siteUser : Site := ⟨"u1", none, [], none, "status_code", [], [], none⟩

/-- Site keyed to the gaia_id identifier kind. -/
def siteGaia : Site := ⟨"g1", some "gaia_id", [], none, "status_code", [], [], none⟩

/-- Message-strategy site declaring both an error message and a failure
marker that can occur in the same body. -/
def siteAnnMsg : Site :=
  ⟨"annmsg", none, [], none, "message", [("captcha", "Captcha detected")],
    ["not found"], none⟩

/-- Body containing both the failure marker and the error message of
`siteAnnMsg`. -/
def demoBody : String := "captcha page: user not found"

/-- Two-entry demonstration catalog paired with delivered responses. -/
def demoCatalog : List (Site × RequestOutcome) :=
  [(siteGaia, .delivered ⟨200, ""⟩), (siteUser, .delivered ⟨200, ""⟩)]

/-- Extracted ids data used by the recursive-extraction evaluations. -/
def demoExtract : List (String × String) :=
  [("username", "alice"), ("gaia_id", "123"), ("avatar", "x")]

end Maigret

namespace Maigret

/-- When no failure marker occurs in the body, the scan leaves the error
text unchanged. -/
theorem scanFailures_no_match (r : HttpResponse) (errs : List (String × String))
    (et : Option String) (h : ∀ p ∈ errs, containsStr r.text p.1 = false) :
    scanFailures (some r) errs et = .ok et := by
  induction errs with
  | nil => rfl
  | cons p rest ih =>
    obtain ⟨text, comment⟩ := p
    have h1 : containsStr r.text text = false := h (text, comment) (List.mem_cons_self _ _)
    simp only [scanFailures, h1, Bool.false_eq_true, if_false]
    exact ih (fun q hq => h q (List.mem_cons_of_mem _ hq))

/-- When some failure marker occurs in the body, the scan stops at a
matching marker and returns its comment. -/
theorem scanFailures_match (r : HttpResponse) (errs : List (String × String))
    (et : Option String) (h : ∃ p ∈ errs, containsStr r.text p.1 = true) :
    ∃ p ∈ errs, containsStr r.text p.1 = true ∧
      scanFailures (some r) errs et = .ok (some p.2) := by
  induction errs with
  | nil => simp at h
  | cons q rest ih =>
    obtain ⟨text, comment⟩ := q
    by_cases hc : containsStr r.text text = true
    · refine ⟨(text, comment), List.mem_cons_self _ _, hc, ?_⟩
      simp only [scanFailures, hc, if_true]
    · have h' : ∃ p ∈ rest, containsStr r.text p.1 = true := by
        obtain ⟨p, hp, hpm⟩ := h
        rcases List.mem_cons.mp hp with he | hr
        · subst he; exact absurd hpm hc
        · exact ⟨p, hr, hpm⟩
      obtain ⟨p, hp, hpm, hsf⟩ := ih h'
      refine ⟨p, List.mem_cons_of_mem _ hp, hpm, ?_⟩
      simp only [scanFailures, hc, Bool.false_eq_true, if_false] at hsf ⊢
      · exact hsf

/-- Claim C1.  The status_code branch classifies a delivered response of
status 100 as CLAIMED: the condition of maigret.py line 414,
`not r.status_code >= 300 or r.status_code < 200`, parses as
`(status < 300) or (status < 200)` and therefore admits every status
below 200, contradicting both the claim and the source's own comment
that it checks for a 2XX status.  Statuses 200 and 404 behave as the
claim says. -/
theorem statusCode_low_status_claimed :
    classifySite siteSC (.delivered ⟨100, ""⟩) = .ok ⟨.CLAIMED, none⟩ ∧
    classifySite siteSC (.delivered ⟨200, ""⟩) = .ok ⟨.CLAIMED, none⟩ ∧
    classifySite siteSC (.delivered ⟨404, ""⟩) = .ok ⟨.AVAILABLE, none⟩ :=
  ⟨rfl, rfl, rfl⟩

/-- Claim C2.  A transport failure on a descriptor that declares failure
markers does not produce a verdict at all: the scan of maigret.py line
361 dereferences `r.text` with `r = None` and raises AttributeError,
aborting the run.  On a descriptor without failure markers the intended
UNKNOWN verdict with the failure context is produced. -/
theorem transportFailure_with_markers_raises :
    classifySite siteAnn (.timeoutErr "timed out") = .error .attributeError ∧
    classifySite siteClean (.timeoutErr "timed out") = .ok ⟨.UNKNOWN, some "Timeout Error"⟩ :=
  ⟨rfl, rfl⟩

/-- Claim C6.  Whenever some declared failure marker occurs in the body
of a delivered response, the verdict is UNKNOWN with the matching
marker's comment as context, whatever the detection strategy says. -/
theorem failure_marker_unknown (s : Site) (r : HttpResponse)
    (h : ∃ p ∈ s.errors, containsStr r.text p.1 = true) :
    ∃ p ∈ s.errors, containsStr r.text p.1 = true ∧
      classifySite s (.delivered r) = .ok ⟨.UNKNOWN, some p.2⟩ := by
  obtain ⟨p, hp, hpm, hsf⟩ :=
    scanFailures_match r s.errors
      (if r.status_code ≠ 0 then none else some "General Unknown Error") h
  refine ⟨p, hp, hpm, ?_⟩
  unfold classifySite
  simp only [get_response]
  rw [hsf]

/-- Witness for claim C6: a message-strategy site whose error message
also occurs in the body is still classified UNKNOWN with the failure
marker's comment. -/
theorem failure_marker_unknown_witness :
    ∃ p ∈ siteAnnMsg.errors, containsStr demoBody p.1 = true ∧
      classifySite siteAnnMsg (.delivered ⟨200, demoBody⟩) = .ok ⟨.UNKNOWN, some p.2⟩ :=
  failure_marker_unknown siteAnnMsg ⟨200, demoBody⟩
    ⟨("captcha", "Captcha detected"), by decide, by decide⟩

/-- Classification of a delivered, marker-free response on a site whose
error type is none of the three known strategies raises the ValueError
of maigret.py lines 448-451. -/
theorem classifySite_unknown_errorType (s : Site) (r : HttpResponse)
    (h1 : s.errorType ≠ "message") (h2 : s.errorType ≠ "status_code")
    (h3 : s.errorType ≠ "response_url") (h4 : r.status_code ≠ 0)
    (h5 : ∀ p ∈ s.errors, containsStr r.text p.1 = false) :
    classifySite s (.delivered r) = .error (.valueErr s.errorType) := by
  have hsf := scanFailures_no_match r s.errors
    (if r.status_code ≠ 0 then none else some "General Unknown Error") h5
  unfold classifySite
  simp only [get_response]
  rw [hsf]
  simp [h1, h2, h3, h4]

/-- A block of sites that all classify without an exception contributes
its verdicts in front of the rest of the loop and leaves the exception
status of the rest unchanged. -/
theorem classifyLoop_ok_append (pre l : List (Site × RequestOutcome))
    (h : ∀ p ∈ pre, ∃ v, classifySite p.1 p.2 = .ok v) :
    (classifyLoop (pre ++ l)).1.length = pre.length + (classifyLoop l).1.length ∧
    (classifyLoop (pre ++ l)).2 = (classifyLoop l).2 := by
  induction pre with
  | nil => simp
  | cons p rest ih =>
    obtain ⟨s, o⟩ := p
    obtain ⟨v, hv⟩ := h (s, o) (List.mem_cons_self _ _)
    have ih' := ih (fun q hq => h q (List.mem_cons_of_mem _ hq))
    simp only [List.cons_append, classifyLoop, hv, List.length_cons]
    simp only [List.append_eq] at ih' ⊢
    exact ⟨by omega, ih'.2⟩

/-- Counterexample to claim C3: a round containing a site with an
unknown error type followed by a well-configured site stops with an
uncaught ValueError; the later site's verdict is never delivered and no
completion is reported, so the configuration error is not local to the
one descriptor. -/
theorem unknown_strategy_not_local :
    roundEvents "u" "username" []
        [(siteBad, .delivered ⟨200, ""⟩), (siteGood, .delivered ⟨200, ""⟩)] =
      ([Event.start "u" "username"], some (.valueErr "magic")) :=
  rfl

/-- Claim C3 as amended.  A descriptor with an unknown error type whose
probe delivered a marker-free response makes the classification loop
raise: verdicts are delivered only for the sites preceding it, nothing
is delivered for it or any later site, no completion is reported, and
the ValueError escapes the round. -/
theorem unknown_strategy_aborts_round (pre post : List (Site × RequestOutcome))
    (s : Site) (r : HttpResponse)
    (hok : ∀ p ∈ pre, ∃ v, classifySite p.1 p.2 = .ok v)
    (h1 : s.errorType ≠ "message") (h2 : s.errorType ≠ "status_code")
    (h3 : s.errorType ≠ "response_url") (h4 : r.status_code ≠ 0)
    (h5 : ∀ p ∈ s.errors, containsStr r.text p.1 = false) :
    (classifyLoop (pre ++ (s, .delivered r) :: post)).2 = some (.valueErr s.errorType) ∧
    (classifyLoop (pre ++ (s, .delivered r) :: post)).1.length = pre.length := by
  have hbad := classifySite_unknown_errorType s r h1 h2 h3 h4 h5
  have hl : classifyLoop ((s, .delivered r) :: post) = ([], some (.valueErr s.errorType)) := by
    simp [classifyLoop, hbad]
  obtain ⟨hlen, herr⟩ := classifyLoop_ok_append pre ((s, .delivered r) :: post) hok
  refine ⟨by rw [herr, hl], by rw [hlen, hl]; simp⟩

/-- Witness for the amended claim C3 at a concrete three-site round. -/
theorem unknown_strategy_aborts_round_witness :
    (classifyLoop ([(siteGood, .delivered ⟨200, ""⟩)] ++
        (siteBad, .delivered ⟨200, ""⟩) :: [(siteUser, .delivered ⟨200, ""⟩)])).2 =
      some (.valueErr siteBad.errorType) ∧
    (classifyLoop ([(siteGood, .delivered ⟨200, ""⟩)] ++
        (siteBad, .delivered ⟨200, ""⟩) :: [(siteUser, .delivered ⟨200, ""⟩)])).1.length =
      [(siteGood, RequestOutcome.delivered ⟨200, ""⟩)].length :=
  unknown_strategy_aborts_round [(siteGood, .delivered ⟨200, ""⟩)]
    [(siteUser, .delivered ⟨200, ""⟩)] siteBad ⟨200, ""⟩
    (by
      intro p hp
      simp only [List.mem_singleton] at hp
      subst hp
      exact ⟨⟨.CLAIMED, none⟩, rfl⟩)
    (by decide) (by decide) (by decide) (by decide)
    (by intro p hp; simp [siteBad] at hp)

/-- Counterexample to claim C4: on a two-site catalog of which only one
site is applicable, the worker pool is sized from the whole catalog (2),
not from the applicable count (1). -/
theorem workers_not_applicable_count :
    max_workers [siteUser, siteGaia] ≠
      min 20 (countApplicable "username" [] [siteUser, siteGaia]) := by
  decide

/-- Claim C4 as amended.  The worker-pool size equals min(20, size of
the whole catalog); it is computed from `len(site_data)` before the
applicability filter runs. -/
theorem workers_min_catalog (l : List Site) : max_workers l = min 20 l.length := by
  unfold max_workers
  split <;> omega

/-- Counterexample to claim C5: a run over two identifiers reports
completion twice (once at the end of each round), not exactly once when
the queue drains. -/
theorem finish_reported_twice :
    countFinished (driver 10 [("alice", "username"), ("bob", "username")] []
      (fun _ => [])) = 2 := by
  decide

/-- Claim C5 as amended.  The completion notification is issued exactly
once per dispatched round, at the end of each `sherlock` call: a run
performing n rounds reports completion n times, not once per run. -/
theorem finish_once_per_round (fuel : Nat) :
    ∀ (q : List (String × String)) (checked : List String)
      (disc : String → List (String × String)),
      countFinished (driver fuel q checked disc) =
        countRounds (driver fuel q checked disc) := by
  induction fuel with
  | zero => intro q c d; rfl
  | succ n ih =>
    intro q c d
    cases q with
    | nil => rfl
    | cons p rest =>
      obtain ⟨u, k⟩ := p
      by_cases h : pyLower u ∈ c
      · simp only [driver, if_pos h]
        exact ih rest c d
      · simp only [driver, if_neg h, countFinished, countRounds, List.countP_cons]
        have := ih (pushAll rest (d u)) (pyLower u :: c) d
        simp only [countFinished, countRounds] at this
        simp only [this]
        rfl

/-- Identifiers whose lower-cased form is already recorded as checked
are never dispatched. -/
theorem dispatchCount_zero (s : String) (fuel : Nat) :
    ∀ (q : List (String × String)) (checked : List String)
      (disc : String → List (String × String)), s ∈ checked →
      dispatchCount s (driver fuel q checked disc) = 0 := by
  induction fuel with
  | zero => intro q c d _; rfl
  | succ n ih =>
    intro q c d hs
    cases q with
    | nil => rfl
    | cons p rest =>
      obtain ⟨u, k⟩ := p
      by_cases h : pyLower u ∈ c
      · simp only [driver, if_pos h]
        exact ih rest c d hs
      · have hne : (pyLower u == s) = false := by
          simp only [beq_eq_false_iff_ne, ne_eq]
          intro he
          exact h (he ▸ hs)
        simp only [driver, if_neg h, dispatchCount, List.countP_cons, hne]
        have := ih (pushAll rest (d u)) (pyLower u :: c) d (List.mem_cons_of_mem _ hs)
        simp only [dispatchCount] at this
        simp [this]

/-- Each lower-cased identifier form is dispatched at most once,
whatever the queue, the checked set and the discovery results are. -/
theorem dispatchCount_le_one (fuel : Nat) :
    ∀ (q : List (String × String)) (checked : List String)
      (disc : String → List (String × String)) (s : String),
      dispatchCount s (driver fuel q checked disc) ≤ 1 := by
  induction fuel with
  | zero => intro q c d s; exact Nat.zero_le 1
  | succ n ih =>
    intro q c d s
    cases q with
    | nil => exact Nat.zero_le 1
    | cons p rest =>
      obtain ⟨u, k⟩ := p
      by_cases h : pyLower u ∈ c
      · simp only [driver, if_pos h]
        exact ih rest c d s
      · by_cases he : pyLower u = s
        · subst he
          have hz := dispatchCount_zero (pyLower u) n (pushAll rest (d u)) (pyLower u :: c) d
            (List.mem_cons_self _ _)
          simp only [dispatchCount] at hz
          simp only [driver, if_neg h, dispatchCount, List.countP_cons, beq_self_eq_true, hz]
          simp
        · have hne : (pyLower u == s) = false := by
            simp only [beq_eq_false_iff_ne, ne_eq]; exact he
          simp only [driver, if_neg h, dispatchCount, List.countP_cons, hne]
          have := ih (pushAll rest (d u)) (pyLower u :: c) d s
          simp only [dispatchCount] at this
          simpa using this

/-- Claim C8.  In every driver run each case-folded identifier form is
dispatched at most once; concretely, a queue holding "alice" and "Alice"
yields a single dispatched round, and the duplicate pop is discarded
with no events at all. -/
theorem dedup_single_dispatch :
    (∀ (fuel : Nat) (q : List (String × String)) (checked : List String)
        (disc : String → List (String × String)) (s : String),
        dispatchCount s (driver fuel q checked disc) ≤ 1) ∧
    driver 5 [("alice", "username"), ("Alice", "username")] [] (fun _ => []) =
      [DEvent.dispatched "alice" "username", DEvent.finished] :=
  ⟨fun fuel q c d s => dispatchCount_le_one fuel q c d s, by decide⟩

/-- Verdict events of the classification loop only name sites occurring
in the processed list. -/
theorem classifyLoop_verdict_names (l : List (Site × RequestOutcome))
    (nm : String) (v : Verdict) (h : Event.verdict nm v ∈ (classifyLoop l).1) :
    ∃ p ∈ l, p.1.name = nm := by
  induction l with
  | nil => simp [classifyLoop] at h
  | cons p rest ih =>
    obtain ⟨s, o⟩ := p
    cases hc : classifySite s o with
    | error e => simp [classifyLoop, hc] at h
    | ok w =>
      simp only [classifyLoop, hc, List.mem_cons] at h
      rcases h with h | h
      · cases h
        exact ⟨(s, o), List.mem_cons_self _ _, rfl⟩
      · obtain ⟨p, hp, hn⟩ := ih h
        exact ⟨p, List.mem_cons_of_mem _ hp, hn⟩

/-- A site name all of whose catalog entries fail the applicability
filter appears nowhere in the round's results, is never probed, and the
sink receives no verdict for it. -/
theorem filtered_name_absent (u idType : String) (tagsF : List String)
    (sites : List (Site × RequestOutcome)) (nm : String)
    (hall : ∀ p ∈ sites, p.1.name = nm → siteApplicable idType tagsF p.1 = false) :
    nm ∉ roundResults idType tagsF sites ∧ nm ∉ probedNames idType tagsF sites ∧
      ∀ v, Event.verdict nm v ∉ (roundEvents u idType tagsF sites).1 := by
  refine ⟨?_, ?_, ?_⟩
  · intro hmem
    simp only [roundResults, List.mem_map, List.mem_filter] at hmem
    obtain ⟨p, ⟨hp, happ⟩, hn⟩ := hmem
    rw [hall p hp hn] at happ
    cases happ
  · intro hmem
    simp only [probedNames, List.mem_map, List.mem_filter] at hmem
    obtain ⟨p, ⟨⟨hp, happ⟩, _⟩, hn⟩ := hmem
    rw [hall p hp hn] at happ
    cases happ
  · intro v hmem
    simp only [roundEvents, List.mem_cons, List.mem_append] at hmem
    rcases hmem with h | h | h
    · cases h
    · simp only [List.mem_map, List.mem_filter] at h
      obtain ⟨p, ⟨⟨hp, happ⟩, _⟩, he⟩ := h
      have hn : p.1.name = nm := by
        have := congrArg (fun e => match e with
          | Event.verdict n _ => n
          | _ => nm) he
        simpa using this
      rw [hall p hp hn] at happ
      cases happ
    · obtain ⟨p, hp, hn⟩ := classifyLoop_verdict_names _ nm v h
      simp only [List.mem_filter] at hp
      obtain ⟨⟨hp', happ⟩, _⟩ := hp
      rw [hall p hp' hn] at happ
      cases happ

/-- Claim C7.  A uniquely-named catalog entry whose identifier kind
differs from the requested one, or whose tag set is disjoint from a
non-empty configured tag filter, is skipped entirely: it is absent from
the round's results, no probe is issued for it, and no verdict event for
it ever reaches the sink. -/
theorem filtered_site_no_verdict (u idType : String) (tagsF : List String)
    (sites : List (Site × RequestOutcome)) (s : Site) (o : RequestOutcome)
    (_hmem : (s, o) ∈ sites)
    (hk : s.type.getD "username" ≠ idType ∨
      (tagsF ≠ [] ∧ ∀ t ∈ tagsF, t ∉ s.tags))
    (huniq : ∀ p ∈ sites, p.1.name = s.name → p.1 = s) :
    s.name ∉ roundResults idType tagsF sites ∧
    s.name ∉ probedNames idType tagsF sites ∧
      ∀ v, Event.verdict s.name v ∉ (roundEvents u idType tagsF sites).1 := by
  have happ : siteApplicable idType tagsF s = false := by
    unfold siteApplicable
    rcases hk with hk | ⟨hne, hdisj⟩
    · have hbe : (s.type.getD "username" == idType) = false := by
        simpa [beq_eq_false_iff_ne] using hk
      rw [hbe]
      simp
    · have h1 : tagsF.isEmpty = false := by
        cases tagsF with
        | nil => exact absurd rfl hne
        | cons a l => rfl
      have h2 : (tagsF.any fun t => s.tags.contains t) = false := by
        simp only [List.any_eq_false]
        intro t ht
        simpa using hdisj t ht
      rw [h1, h2]
      simp
  exact filtered_name_absent u idType tagsF sites s.name
    (fun p hp hn => by rw [huniq p hp hn]; exact happ)

/-- Witness for claim C7: in the two-site demonstration catalog queried
for kind "username", the gaia_id-kinded site is absent from results, is
never probed, and produces no verdict event. -/
theorem filtered_site_no_verdict_witness :
    siteGaia.name ∉ roundResults "username" [] demoCatalog ∧
    siteGaia.name ∉ probedNames "username" [] demoCatalog ∧
      Event.verdict siteGaia.name illegalVerdict ∉
        (roundEvents "u" "username" [] demoCatalog).1 := by
  have h := filtered_site_no_verdict "u" "username" [] demoCatalog siteGaia
    (.delivered ⟨200, ""⟩) (by decide)
    (Or.inl (by decide))
    (by
      intro p hp hn
      simp only [demoCatalog, List.mem_cons, List.mem_singleton] at hp
      rcases hp with hp | hp | hp
      · rw [hp]
      · rw [hp] at hn ⊢
        exact absurd hn (by decide)
      · simp at hp)
  exact ⟨h.1, h.2.1, h.2.2 illegalVerdict⟩

/-- Claim C9.  A status_code site with the head-only field absent is
probed with HEAD (the field defaults to true); a site with any other
error type, or with the field explicitly false, is probed with GET. -/
theorem head_method_selection (s : Site) :
    (s.errorType = "status_code" → s.request_head_only = none →
      request_method s = .head) ∧
    (s.errorType ≠ "status_code" → request_method s = .get) ∧
    (s.request_head_only = some false → request_method s = .get) := by
  refine ⟨?_, ?_, ?_⟩
  · intro h1 h2
    simp [request_method, h1, h2]
  · intro h1
    simp [request_method, h1]
  · intro h1
    simp [request_method, h1]

/-- Witness for claim C9 on three concrete sites: status_code with the
field absent, message strategy, and status_code with the field false. -/
theorem head_method_selection_witness :
    request_method siteSC = .head ∧
    request_method siteClean = .get ∧
    request_method ⟨"scget", none, [], none, "status_code", [], [], some false⟩ = .get :=
  ⟨(head_method_selection siteSC).1 rfl rfl,
    (head_method_selection siteClean).2.1 (by decide),
    (head_method_selection ⟨"scget", none, [], none, "status_code", [], [], some false⟩).2.2 rfl⟩

/-- A key assigns some kind exactly when it contains "username" or is
one of the three special id keys. -/
theorem assignKind_isSome (k : String) :
    (assignKind k).isSome =
      (containsStr k "username" ||
        (k == "yandex_public_id" || k == "wikimapia_uid" || k == "gaia_id")) := by
  unfold assignKind
  by_cases h : k = "yandex_public_id" ∨ k = "wikimapia_uid" ∨ k = "gaia_id"
  · rcases h with h | h | h <;> subst h <;> decide
  · push_neg at h
    obtain ⟨h1, h2, h3⟩ := h
    rw [if_neg (by tauto)]
    have b1 : (k == "yandex_public_id") = false := by simpa [beq_eq_false_iff_ne] using h1
    have b2 : (k == "wikimapia_uid") = false := by simpa [beq_eq_false_iff_ne] using h2
    have b3 : (k == "gaia_id") = false := by simpa [beq_eq_false_iff_ne] using h3
    rw [b1, b2, b3]
    cases hc : containsStr k "username" <;> simp [hc]

/-- Claim C10.  A value extracted from a response body is queued exactly
when some extracted key carrying it contains the substring "username" or
is one of yandex_public_id, wikimapia_uid, gaia_id; and every kind the
queue records for a value is the assignment of such a key (the key
itself for the three special keys, "username" otherwise).  Pairs with
any other key never enter the queue. -/
theorem extraction_filter (l : List (String × String)) (v : String) :
    ((new_usernames_lookup l v).isSome =
      l.any (fun p => p.2 == v &&
        (containsStr p.1 "username" ||
          (p.1 == "yandex_public_id" || p.1 == "wikimapia_uid" || p.1 == "gaia_id")))) ∧
    (∀ kind, new_usernames_lookup l v = some kind →
      ∃ k, (k, v) ∈ l ∧ assignKind k = some kind) := by
  induction l with
  | nil => exact ⟨rfl, by intro kind h; cases h⟩
  | cons p rest ih =>
    obtain ⟨k, val⟩ := p
    obtain ⟨ih1, ih2⟩ := ih
    constructor
    · cases hrest : new_usernames_lookup rest v with
      | some s =>
        have hany : (rest.any fun p => p.2 == v &&
            (containsStr p.1 "username" ||
              (p.1 == "yandex_public_id" || p.1 == "wikimapia_uid" || p.1 == "gaia_id"))) =
              true := by
          rw [← ih1, hrest]; rfl
        simp only [new_usernames_lookup, hrest, List.any_cons, hany, Bool.or_true]
        rfl
      | none =>
        have hany : (rest.any fun p => p.2 == v &&
            (containsStr p.1 "username" ||
              (p.1 == "yandex_public_id" || p.1 == "wikimapia_uid" || p.1 == "gaia_id"))) =
              false := by
          rw [← ih1, hrest]; rfl
        simp only [new_usernames_lookup, hrest, List.any_cons, hany, Bool.or_false]
        by_cases hv : val = v
        · subst hv
          simp only [beq_self_eq_true, Bool.true_and, if_pos rfl]
          exact assignKind_isSome k
        · have hb : (val == v) = false := by simpa [beq_eq_false_iff_ne] using hv
          simp [new_usernames_lookup, hv, hb]
    · intro kind h
      cases hrest : new_usernames_lookup rest v with
      | some s =>
        rw [new_usernames_lookup, hrest] at h
        cases h
        obtain ⟨k', hk', ha⟩ := ih2 kind hrest
        exact ⟨k', List.mem_cons_of_mem _ hk', ha⟩
      | none =>
        rw [new_usernames_lookup, hrest] at h
        by_cases hv : val = v
        · rw [if_pos hv] at h
          subst hv
          exact ⟨k, List.mem_cons_self _ _, h⟩
        · rw [if_neg hv] at h
          cases h

/-- Witness for claim C10 on a concrete extraction: "123" extracted
under key gaia_id is queued with kind gaia_id, and the pair under key
avatar is discarded. -/
theorem extraction_filter_witness :
    ((new_usernames_lookup demoExtract "123").isSome =
      demoExtract.any (fun p => p.2 == "123" &&
        (containsStr p.1 "username" ||
          (p.1 == "yandex_public_id" || p.1 == "wikimapia_uid" || p.1 == "gaia_id")))) ∧
    (∃ k, (k, "123") ∈ demoExtract ∧ assignKind k = some "gaia_id") ∧
    new_usernames_lookup demoExtract "x" = none :=
  ⟨(extraction_filter demoExtract "123").1,
    (extraction_filter demoExtract "123").2 "gaia_id" (by decide),
    by decide⟩

end Maigret
